import Mathlib

/-!
Verification of `scripts/convert_dictabert_coreml.py`.

The script converts a masked-language model to a static-shape, INT8-quantized
Core ML package plus a vocabulary file.  We shallowly embed the parts of the
script that the properties below depend on:

* the vocabulary export loop (`main`, lines 77–86): the token→id dictionary is
  sorted by id and each token is written followed by a single `"\n"`;
* `MaskedLMWrapper.forward` (lines 44–65): the 4-D additive attention bias
  `(1.0 - mask) * (-3.4028e+38)` and the pure composition of the embedding,
  encoder and classification-head submodules (modelled as abstract functions:
  the model is in `eval()` mode, so they are deterministic tensor functions);
* the dummy trace inputs (lines 93–98) and the `torch.jit.trace` call;
* the `ct.convert` argument list (lines 103–115);
* the save step (lines 124–127): remove any existing `.mlpackage` directory,
  then write the fresh one.

Machine floating point (`float32`) is modelled by exact rational arithmetic;
for the mask values the claims quantify over ({0, 1}, and small integers in
general) every multiplication involved is exact in `float32` as long as it
does not overflow, and the sign conclusions we prove survive overflow to
infinity, so the rational model is faithful for these properties.
-/

namespace DictaBertConvert

/-- Constant `MAX_SEQ_LEN = 128` (line 25). -/
def MAX_SEQ_LEN : Nat := 128

/-! ### Vocabulary exporter (`main`, lines 81–86)

`vocab = tokenizer.get_vocab()` is a token→id dictionary, modelled as a list
of `(token, id)` pairs.  `ordered = sorted(vocab.items(), key=lambda kv: kv[1])`
is a stable sort ascending by id; `List.insertionSort` below is stable and
sorted, matching the behaviour of Python sorted.  The file content is the concatenation of
`token + "\n"` over `ordered`. -/

/-- The comparison `key=lambda kv: kv[1]` used by the `sorted` call (line 82). -/
def idLE (a b : String × Nat) : Prop := a.2 ≤ b.2

instance : DecidableRel idLE := fun a b => Nat.decLe a.2 b.2

instance : IsTotal (String × Nat) idLE := ⟨fun a b => Nat.le_total a.2 b.2⟩

instance : IsTrans (String × Nat) idLE := ⟨fun _ _ _ => Nat.le_trans⟩

/-- Line 82: `ordered = sorted(vocab.items(), key=lambda kv: kv[1])`. -/
def orderedVocab (vocab : List (String × Nat)) : List (String × Nat) :=
  List.insertionSort idLE vocab

/-- The characters written to `vocab.txt`: for each ordered entry,
`f.write(token + "\n")` (lines 83–85). -/
def vocabFileChars (vocab : List (String × Nat)) : List Char :=
  ((orderedVocab vocab).map (fun kv => kv.1.data ++ ['\n'])).flatten

/-- The lines of a text file: content split at `'\n'`, a trailing newline not
opening a final empty line (the usual line count of a newline-terminated
file). -/
def splitLines : List Char → List (List Char)
  | [] => []
  | c :: cs =>
    if c = '\n' then [] :: splitLines cs
    else
      match splitLines cs with
      | [] => [[c]]
      | l :: ls => (c :: l) :: ls

/-- Number of lines of a file with the given content. -/
def lineCount (cs : List Char) : Nat := (splitLines cs).length

theorem splitLines_ne_nil {cs : List Char} (h : cs ≠ []) : splitLines cs ≠ [] := by
  match cs with
  | [] => exact absurd rfl h
  | c :: cs =>
    by_cases hc : c = '\n'
    · simp [splitLines, hc]
    · simp only [splitLines, if_neg hc]
      cases splitLines cs <;> simp

/-- Splitting a chunk that ends with an explicit newline peels off one line,
provided the chunk itself is newline-free. -/
theorem splitLines_append_newline {xs : List Char} (hx : '\n' ∉ xs) (ys : List Char) :
    splitLines (xs ++ '\n' :: ys) = xs :: splitLines ys := by
  induction xs with
  | nil => simp [splitLines]
  | cons x xs ih =>
    have hxne : x ≠ '\n' := fun h => hx (h ▸ List.mem_cons_self x xs)
    have hx' : '\n' ∉ xs := fun h => hx (List.mem_cons_of_mem x h)
    have hrec : splitLines (xs ++ '\n' :: ys) = xs :: splitLines ys := ih hx'
    simp [List.cons_append, splitLines, if_neg hxne, hrec]

/-- Line count of a chunk ending in a newline: one line per `'\n'` inside the
chunk, plus the terminating line, plus the rest. -/
theorem length_splitLines_append_newline (xs ys : List Char) :
    (splitLines (xs ++ '\n' :: ys)).length
      = xs.count '\n' + 1 + (splitLines ys).length := by
  induction xs with
  | nil =>
    have hstep : splitLines ('\n' :: ys) = [] :: splitLines ys := by simp [splitLines]
    rw [List.nil_append, hstep, List.length_cons, List.count_nil]
    omega
  | cons x xs ih =>
    by_cases hx : x = '\n'
    · subst hx
      have hstep : splitLines ('\n' :: (xs ++ '\n' :: ys))
          = [] :: splitLines (xs ++ '\n' :: ys) := by
        simp [splitLines]
      rw [List.cons_append, hstep, List.length_cons, ih, List.count_cons_self]
      omega
    · rcases h : splitLines (xs ++ '\n' :: ys) with _ | ⟨l, ls⟩
      · have := ih
        rw [h] at this
        simp at this
        omega
      · have hstep : splitLines (x :: (xs ++ '\n' :: ys)) = (x :: l) :: ls := by
          simp [splitLines, if_neg hx, h]
        rw [List.cons_append, hstep, List.length_cons]
        have hlen : (l :: ls).length = xs.count '\n' + 1 + (splitLines ys).length := by
          rw [← h]; exact ih
        rw [List.count_cons_of_ne (Ne.symm hx)]
        simp only [List.length_cons] at hlen
        omega

/-- The lines of the concatenated `token + "\n"` chunks are exactly the tokens,
when no token contains a newline. -/
theorem splitLines_join_chunks (l : List (String × Nat))
    (h : ∀ kv ∈ l, '\n' ∉ kv.1.data) :
    splitLines ((l.map (fun kv => kv.1.data ++ ['\n'])).flatten)
      = l.map (fun kv => kv.1.data) := by
  induction l with
  | nil => simp [splitLines]
  | cons kv l ih =>
    have hkv : '\n' ∉ kv.1.data := h kv (List.mem_cons_self kv l)
    have h' : ∀ e ∈ l, '\n' ∉ e.1.data := fun e he => h e (List.mem_cons_of_mem kv he)
    simp only [List.map_cons, List.flatten_cons, List.append_assoc, List.singleton_append]
    rw [splitLines_append_newline hkv, ih h']

/-- Line count of the concatenated chunks: one line per entry plus one line per
newline character embedded in a token. -/
theorem lineCount_join_chunks (l : List (String × Nat)) :
    lineCount ((l.map (fun kv => kv.1.data ++ ['\n'])).flatten)
      = l.length + (l.map (fun kv => kv.1.data.count '\n')).sum := by
  induction l with
  | nil => simp [lineCount, splitLines]
  | cons kv l ih =>
    have hflat : ((kv :: l).map (fun kv => kv.1.data ++ ['\n'])).flatten
        = kv.1.data ++ '\n' :: (l.map (fun kv => kv.1.data ++ ['\n'])).flatten := by
      simp
    rw [lineCount, hflat, length_splitLines_append_newline]
    rw [lineCount] at ih
    simp only [List.length_cons, List.map_cons, List.sum_cons]
    omega

/-- The list `ordered` is a permutation of the `(token, id)` dictionary items. -/
theorem orderedVocab_perm (vocab : List (String × Nat)) :
    List.Perm (orderedVocab vocab) vocab :=
  List.perm_insertionSort idLE vocab

/-- The ids of `ordered` are non-decreasing. -/
theorem sorted_map_snd_orderedVocab (vocab : List (String × Nat)) :
    ((orderedVocab vocab).map Prod.snd).Sorted (· ≤ ·) :=
  List.pairwise_map.mpr (List.sorted_insertionSort idLE vocab)

/-- When the ids exactly cover `[0, N)`, the sorted ids are `0, 1, …, N-1`. -/
theorem map_snd_orderedVocab_eq_range {vocab : List (String × Nat)} {N : Nat}
    (hperm : List.Perm (vocab.map Prod.snd) (List.range N)) :
    (orderedVocab vocab).map Prod.snd = List.range N :=
  List.eq_of_perm_of_sorted (((orderedVocab_perm vocab).map Prod.snd).trans hperm)
    (sorted_map_snd_orderedVocab vocab) (List.sorted_le_range N)

/-! ### Static-shape model wrapper (`MaskedLMWrapper`, lines 29–65)

Tensors of shape `[1, L]` are modelled by their single row; the `dims` field
records the declared shape. -/

/-- A `[1, L]`-shaped integer tensor: declared dims plus the row of entries. -/
structure Tensor2 where
  dims : List Nat
  data : List Int
deriving DecidableEq

/-- A `[1, 1, 1, L]`-shaped float tensor, float32 modelled by exact rationals. -/
structure Tensor4 where
  dims : List Nat
  data : List ℚ
deriving DecidableEq

/-- The large negative constant `-3.4028e+38` of line 49, as an exact rational. -/
def LARGE_NEGATIVE : ℚ := -(34028 * 10 ^ 34)

/-- Lines 47–49: `attention_mask.unsqueeze(1).unsqueeze(2).to(torch.float32)`
reshapes `[1, L]` to `[1, 1, 1, L]` and casts to float; then elementwise
`(1.0 - extended_mask) * (-3.4028e+38)`. -/
def extendedMask (attention_mask : List Int) : Tensor4 :=
  { dims := [1, 1, 1, attention_mask.length]
    data := attention_mask.map (fun (m : Int) => (1 - (m : ℚ)) * LARGE_NEGATIVE) }

/-- The wrapper module (lines 29–42): holds the embeddings and encoder of
`hf_model.bert` and the head `hf_model.cls`, modelled as abstract functions over hidden state
type `H` and output type `O` (the model is in `eval()` mode, so the submodules
are deterministic tensor functions), plus the precomputed `position_ids`
buffer.  The encoder returns a tuple; its first component is used. -/
structure MaskedLMWrapper (H O : Type) where
  bert_embeddings : List Int → List Nat → List Int → H
  bert_encoder : H → Tensor4 → H × List H
  cls : H → O
  position_ids : List Nat

/-- Constructor `__init__` (lines 35–42): `position_ids = torch.arange(max_seq_len).unsqueeze(0)`,
the constant row `[0, 1, …, max_seq_len-1]`. -/
def mkMaskedLMWrapper {H O : Type} (emb : List Int → List Nat → List Int → H)
    (enc : H → Tensor4 → H × List H) (head : H → O) (max_seq_len : Nat) :
    MaskedLMWrapper H O :=
  { bert_embeddings := emb, bert_encoder := enc, cls := head
    position_ids := List.range max_seq_len }

/-- Method `forward` (lines 44–65): build the 4-D additive mask, run embeddings with
the constant `position_ids`, run the encoder on the embedding output with the
precomputed mask, take component `[0]`, and apply the classification head. -/
def MaskedLMWrapper.forward {H O : Type} (w : MaskedLMWrapper H O)
    (input_ids attention_mask token_type_ids : List Int) : O :=
  let extended_mask := extendedMask attention_mask
  let embedding_output := w.bert_embeddings input_ids w.position_ids token_type_ids
  let encoder_output := w.bert_encoder embedding_output extended_mask
  let sequence_output := encoder_output.1
  w.cls sequence_output

/-! ### Filesystem state, artifact writer and pipeline (`main`, lines 68–133) -/

/-- A file in the output directory: the flat vocabulary text file, or a model
package directory (its contents abstracted to a version number). -/
inductive FileData
  | text : List Char → FileData
  | package : Nat → FileData
deriving DecidableEq

/-- The output directory: a list of (name, data) entries. -/
abbrev FS := List (String × FileData)

/-- Name `"DictaBERT_INT8.mlpackage"` (line 124). -/
def mlpackageName : String := "DictaBERT_INT8.mlpackage"

/-- Name `"vocab.txt"` (line 78). -/
def vocabTxtName : String := "vocab.txt"

/-- Lines 124–127: `if mlpackage_path.exists(): shutil.rmtree(mlpackage_path)`
then `mlmodel_int8.save(...)` — remove any existing package directory at the
destination, then write the fresh one. -/
def savePackage (fs : FS) (content : Nat) : FS :=
  (if fs.any (fun e => e.1 == mlpackageName)
    then fs.filter (fun e => e.1 != mlpackageName)
    else fs) ++ [(mlpackageName, FileData.package content)]

/-- Writing via `open(path, "w")` on a flat file: overwrite the file at `name`. -/
def setFile (fs : FS) (name : String) (d : FileData) : FS :=
  fs.filter (fun e => e.1 != name) ++ [(name, d)]

/-- Read the entry at `name`, if present. -/
def getFile (fs : FS) (name : String) : Option FileData :=
  ((fs.filter (fun e => e.1 == name)).map Prod.snd).head?

/-- The fallible model stages after the vocabulary export. -/
inductive Stage
  | trace
  | convert
  | quantize
deriving DecidableEq

/-- Function `main` after model load (lines 77–133): write `vocab.txt` first, then run
trace (lines 89–99), conversion (lines 101–115) and quantization (lines
117–121), each of which may raise fatally (the error carries the filesystem
state at the moment of failure), and finally save the package (lines 123–127).
The three Booleans say whether the corresponding stage succeeds. -/
def mainPipeline (fs : FS) (vocab : List (String × Nat)) (pkgContent : Nat)
    (traceOk convertOk quantizeOk : Bool) : Except (Stage × FS) FS :=
  let fs1 := setFile fs vocabTxtName (FileData.text (vocabFileChars vocab))
  if !traceOk then Except.error (Stage.trace, fs1)
  else if !convertOk then Except.error (Stage.convert, fs1)
  else if !quantizeOk then Except.error (Stage.quantize, fs1)
  else Except.ok (savePackage fs1 pkgContent)

/-- The on-disk state when the pipeline stops, whether by success or by a
fatal error. -/
def finalFS : Except (Stage × FS) FS → FS
  | Except.error (_, fs) => fs
  | Except.ok fs => fs

/-! ### Converter invocation (`ct.convert`, lines 103–115) -/

/-- Element types named in the conversion call. -/
inductive CTDType
  | int32
  | float32
deriving DecidableEq

/-- A `ct.TensorType(...)` argument: name, optional fixed shape, optional dtype. -/
structure CTTensorType where
  name : String
  shape : Option (List Nat)
  dtype : Option CTDType
deriving DecidableEq

/-- The `inputs=[...]` argument of `ct.convert` (lines 105–109). -/
def convertInputs : List CTTensorType :=
  [{ name := "input_ids", shape := some [1, MAX_SEQ_LEN], dtype := some CTDType.int32 },
   { name := "attention_mask", shape := some [1, MAX_SEQ_LEN], dtype := some CTDType.int32 },
   { name := "token_type_ids", shape := some [1, MAX_SEQ_LEN], dtype := some CTDType.int32 }]

/-- The `outputs=[...]` argument of `ct.convert` (lines 110–112). -/
def convertOutputs : List CTTensorType :=
  [{ name := "logits", shape := none, dtype := none }]

/-- Line 114: `minimum_deployment_target=ct.target.macOS14`. -/
def minimumDeploymentTarget : Option String := some "macOS14"

/-! ### Trace inputs (`main`, lines 93–98) -/

/-- Line 93: `dummy_ids = torch.randint(0, 1000, (1, MAX_SEQ_LEN))`: the drawn
row is a parameter; the contract of `torch.randint(low, high, ...)` puts every
entry in `[low, high)`, which the theorems take as a hypothesis. -/
def dummyIds (draw : List Int) : Tensor2 :=
  { dims := [1, MAX_SEQ_LEN], data := draw }

/-- Line 94: `dummy_mask = torch.ones(1, MAX_SEQ_LEN)`. -/
def dummyMask : Tensor2 :=
  { dims := [1, MAX_SEQ_LEN], data := List.replicate MAX_SEQ_LEN 1 }

/-- Line 95: `dummy_type_ids = torch.zeros(1, MAX_SEQ_LEN)`. -/
def dummyTypeIds : Tensor2 :=
  { dims := [1, MAX_SEQ_LEN], data := List.replicate MAX_SEQ_LEN 0 }

/-- The capture produced by a trace call: the recorded graph (here, the
value of the function on the example input) and the invocations performed while
recording. -/
structure TraceResult (A B : Type) where
  graph : B
  recordedCalls : List A

/-- Modelled from the spec: `torch.jit.trace(wrapper, inputs)` (line 98) is
library code outside this repository; per the spec it "execute[s] the wrapper
once under trace/record mode to capture a concrete dataflow graph", so the
recorded invocation list is exactly the one example input. -/
def jitTrace {A B : Type} (f : A → B) (x : A) : TraceResult A B :=
  { graph := f x, recordedCalls := [x] }

/-! ### Claim theorems -/

/-- C1 (amended): for every tokenizer vocabulary of size `N` whose ids exactly
cover `[0, N)` and whose tokens contain no newline character, the exporter
writes a newline-delimited file with exactly `N` lines in which line `i`
(0-based) is the token mapped to id `i`. -/
theorem c1_vocab_lines_indexed_by_id (vocab : List (String × Nat)) (N : Nat)
    (hperm : List.Perm (vocab.map Prod.snd) (List.range N))
    (hclean : ∀ kv ∈ vocab, '\n' ∉ kv.1.data) :
    lineCount (vocabFileChars vocab) = N ∧
    ∀ t i, (t, i) ∈ vocab → (splitLines (vocabFileChars vocab))[i]? = some t.data := by
  have hords : (orderedVocab vocab).map Prod.snd = List.range N :=
    map_snd_orderedVocab_eq_range hperm
  have hcleano : ∀ kv ∈ orderedVocab vocab, '\n' ∉ kv.1.data :=
    fun kv hkv => hclean kv ((orderedVocab_perm vocab).subset hkv)
  have hlines : splitLines (vocabFileChars vocab)
      = (orderedVocab vocab).map (fun kv => kv.1.data) :=
    splitLines_join_chunks _ hcleano
  have holen : (orderedVocab vocab).length = N := by
    have h := congrArg List.length hords
    simpa using h
  constructor
  · rw [lineCount, hlines, List.length_map, holen]
  · intro t i hti
    have hiN : i < N := by
      have h1 : i ∈ vocab.map Prod.snd := List.mem_map_of_mem Prod.snd hti
      exact List.mem_range.mp (hperm.mem_iff.mp h1)
    have hio : i < (orderedVocab vocab).length := holen ▸ hiN
    obtain ⟨e, he⟩ : ∃ e, (orderedVocab vocab)[i]? = some e := by
      rw [List.getElem?_eq_getElem hio]
      exact ⟨_, rfl⟩
    have hei : e.2 = i := by
      have hmi : ((orderedVocab vocab).map Prod.snd)[i]? = some e.2 := by
        rw [List.getElem?_map, he, Option.map_some']
      rw [hords, List.getElem?_range hiN] at hmi
      exact (Option.some.inj hmi).symm
    have hemem : e ∈ vocab := by
      refine (orderedVocab_perm vocab).subset ?_
      obtain ⟨hlt, hEq⟩ := List.getElem?_eq_some_iff.mp he
      exact hEq ▸ List.getElem_mem hlt
    have hnd : (vocab.map Prod.snd).Nodup :=
      (hperm.nodup_iff).mpr (List.nodup_range N)
    have hee : e = (t, i) := List.inj_on_of_nodup_map hnd hemem hti (by rw [hei])
    rw [hlines, List.getElem?_map, he, Option.map_some', hee]

/-- C1 counterexample: the claim as stated fails when a token embeds a newline.
The single-entry vocabulary mapping `"a\nb"` to id 0 has ids exactly covering
`[0, 1)`, yet its exported file has 2 lines, not 1. -/
theorem c1_newline_token_counterexample :
    List.Perm (([("a\nb", 0)] : List (String × Nat)).map Prod.snd) (List.range 1) ∧
    lineCount (vocabFileChars [("a\nb", 0)]) ≠ 1 := by
  constructor
  · decide
  · decide

/-- C1 witness: evaluating the amended claim on the concrete two-token
vocabulary `{"b" ↦ 1, "a" ↦ 0}`. -/
theorem c1_witness :
    lineCount (vocabFileChars [("b", 1), ("a", 0)]) = 2 ∧
    ∀ t i, (t, i) ∈ ([("b", 1), ("a", 0)] : List (String × Nat)) →
      (splitLines (vocabFileChars [("b", 1), ("a", 0)]))[i]? = some t.data :=
  c1_vocab_lines_indexed_by_id [("b", 1), ("a", 0)] 2 (by decide) (by decide)

/-- C8 (amended): for every token→id mapping — duplicate ids and id gaps
included — the exporter is total, performs no validation, orders entries by
non-decreasing id, and, provided no token embeds a newline, writes exactly one
line per mapping entry. -/
theorem c8_exporter_total_no_validation (vocab : List (String × Nat))
    (hclean : ∀ kv ∈ vocab, '\n' ∉ kv.1.data) :
    lineCount (vocabFileChars vocab) = vocab.length ∧
    splitLines (vocabFileChars vocab) = (orderedVocab vocab).map (fun kv => kv.1.data) ∧
    ((orderedVocab vocab).map Prod.snd).Sorted (· ≤ ·) := by
  have hcleano : ∀ kv ∈ orderedVocab vocab, '\n' ∉ kv.1.data :=
    fun kv hkv => hclean kv ((orderedVocab_perm vocab).subset hkv)
  have hlines : splitLines (vocabFileChars vocab)
      = (orderedVocab vocab).map (fun kv => kv.1.data) :=
    splitLines_join_chunks _ hcleano
  refine ⟨?_, hlines, sorted_map_snd_orderedVocab vocab⟩
  rw [lineCount, hlines, List.length_map, (orderedVocab_perm vocab).length_eq]

/-- C8 counterexample: with a newline-embedding token the line count differs
from the entry count, so the unconditional claim fails: the two-entry mapping
`{"x\ny" ↦ 0, "z" ↦ 1}` produces a 3-line file. -/
theorem c8_newline_counterexample :
    lineCount (vocabFileChars [("x\ny", 0), ("z", 1)]) ≠ 2 := by
  decide

/-- C8 witness: evaluating the amended claim on a concrete mapping with a
duplicate id (5, twice) and gaps in the id range. -/
theorem c8_witness :
    lineCount (vocabFileChars [("dup1", 5), ("dup2", 5), ("gap", 9)]) = 3 ∧
    splitLines (vocabFileChars [("dup1", 5), ("dup2", 5), ("gap", 9)])
      = (orderedVocab [("dup1", 5), ("dup2", 5), ("gap", 9)]).map (fun kv => kv.1.data) ∧
    ((orderedVocab [("dup1", 5), ("dup2", 5), ("gap", 9)]).map Prod.snd).Sorted (· ≤ ·) :=
  c8_exporter_total_no_validation [("dup1", 5), ("dup2", 5), ("gap", 9)] (by decide)

/-- C9: tokens are written verbatim with one appended newline and no escaping,
so the line count is the entry count plus the number of newline characters
embedded in tokens, and strictly exceeds the entry count as soon as any token
embeds a newline — breaking the line-index-equals-id contract. -/
theorem c9_embedded_newlines_inflate_count (vocab : List (String × Nat)) :
    lineCount (vocabFileChars vocab)
      = vocab.length + (vocab.map (fun kv => kv.1.data.count '\n')).sum ∧
    ((∃ kv ∈ vocab, '\n' ∈ kv.1.data) →
      vocab.length < lineCount (vocabFileChars vocab)) := by
  have hcount : lineCount (vocabFileChars vocab)
      = vocab.length + (vocab.map (fun kv => kv.1.data.count '\n')).sum := by
    rw [vocabFileChars, lineCount_join_chunks, (orderedVocab_perm vocab).length_eq,
      ((orderedVocab_perm vocab).map (fun kv => kv.1.data.count '\n')).sum_eq]
  refine ⟨hcount, ?_⟩
  rintro ⟨kv, hkv, hnl⟩
  have hpos : 0 < kv.1.data.count '\n' := List.count_pos_iff.mpr hnl
  have hle : kv.1.data.count '\n' ≤ (vocab.map (fun kv => kv.1.data.count '\n')).sum :=
    List.le_sum_of_mem (List.mem_map_of_mem _ hkv)
  omega

/-- C9 witness: evaluating the claim on the concrete mapping
`{"a\nb" ↦ 0, "c" ↦ 1}`, whose first token embeds one newline. -/
theorem c9_witness :
    lineCount (vocabFileChars [("a\nb", 0), ("c", 1)])
      = ([("a\nb", 0), ("c", 1)] : List (String × Nat)).length
        + (([("a\nb", 0), ("c", 1)] : List (String × Nat)).map
            (fun kv => kv.1.data.count '\n')).sum ∧
    ([("a\nb", 0), ("c", 1)] : List (String × Nat)).length
      < lineCount (vocabFileChars [("a\nb", 0), ("c", 1)]) :=
  ⟨(c9_embedded_newlines_inflate_count [("a\nb", 0), ("c", 1)]).1,
    (c9_embedded_newlines_inflate_count [("a\nb", 0), ("c", 1)]).2
      ⟨("a\nb", 0), by decide, by decide⟩⟩

/-- C2: for every `[1, L]` attention mask with entries in {0, 1}, the derived
additive bias has shape `[1, 1, 1, L]` and length-`L` data, is exactly `0` at
every position where the mask is `1`, is `≤ -1e38` at every position where the
mask is `0`, and at every position is one of those two. -/
theorem c2_attention_bias (L : Nat) (mask : List Int) (hlen : mask.length = L)
    (hb : ∀ m ∈ mask, m = 0 ∨ m = 1) :
    (extendedMask mask).dims = [1, 1, 1, L] ∧
    (extendedMask mask).data.length = L ∧
    ∀ i, i < L →
      (mask[i]? = some 1 → (extendedMask mask).data[i]? = some 0) ∧
      (mask[i]? = some 0 →
        ∃ q : ℚ, (extendedMask mask).data[i]? = some q ∧ q ≤ -(10 ^ 38)) ∧
      ((extendedMask mask).data[i]? = some 0 ∨
        ∃ q : ℚ, (extendedMask mask).data[i]? = some q ∧ q ≤ -(10 ^ 38)) := by
  subst hlen
  have hdata : (extendedMask mask).data
      = mask.map (fun (m : Int) => (1 - (m : ℚ)) * LARGE_NEGATIVE) := rfl
  have hone : ∀ i : Nat, mask[i]? = some 1 → (extendedMask mask).data[i]? = some 0 := by
    intro i h1
    rw [hdata, List.getElem?_map, h1, Option.map_some']
    norm_num
  have hzero : ∀ i : Nat, mask[i]? = some 0 →
      ∃ q : ℚ, (extendedMask mask).data[i]? = some q ∧ q ≤ -(10 ^ 38) := by
    intro i h0
    refine ⟨LARGE_NEGATIVE, ?_, by norm_num [LARGE_NEGATIVE]⟩
    rw [hdata, List.getElem?_map, h0, Option.map_some']
    norm_num
  refine ⟨rfl, by simp [extendedMask], fun i hi => ⟨hone i, hzero i, ?_⟩⟩
  obtain ⟨v, hv⟩ : ∃ v, mask[i]? = some v := by
    rw [List.getElem?_eq_getElem hi]
    exact ⟨_, rfl⟩
  have hvmem : v ∈ mask := by
    obtain ⟨hlt, hEq⟩ := List.getElem?_eq_some_iff.mp hv
    exact hEq ▸ List.getElem_mem hlt
  rcases hb v hvmem with h | h
  · exact Or.inr (hzero i (by rw [hv, h]))
  · exact Or.inl (hone i (by rw [hv, h]))

/-- C2 witness: evaluating the claim on the concrete mask `[1, 1, 0]` of
length 3. -/
theorem c2_witness :
    (extendedMask [1, 1, 0]).dims = [1, 1, 1, 3] ∧
    (extendedMask [1, 1, 0]).data.length = 3 ∧
    ∀ i, i < 3 →
      (([1, 1, 0] : List Int)[i]? = some 1 →
        (extendedMask [1, 1, 0]).data[i]? = some 0) ∧
      (([1, 1, 0] : List Int)[i]? = some 0 →
        ∃ q : ℚ, (extendedMask [1, 1, 0]).data[i]? = some q ∧ q ≤ -(10 ^ 38)) ∧
      ((extendedMask [1, 1, 0]).data[i]? = some 0 ∨
        ∃ q : ℚ, (extendedMask [1, 1, 0]).data[i]? = some q ∧ q ≤ -(10 ^ 38)) :=
  c2_attention_bias 3 [1, 1, 0] rfl (by decide)

/-- C10: the bias derivation is total over arbitrary integer mask entries —
every entry `v` yields the value `(1 - v) * (-3.4028e38)` with no error — and
any entry `v ≥ 2` yields a large positive bias (at least `3.4028e38`),
amplifying rather than suppressing attention. -/
theorem c10_out_of_range_mask_positive_bias (mask : List Int) :
    (extendedMask mask).data.length = mask.length ∧
    ∀ (i : Nat) (v : Int), mask[i]? = some v →
      (extendedMask mask).data[i]? = some ((1 - (v : ℚ)) * LARGE_NEGATIVE) ∧
      (2 ≤ v → (34028 * 10 ^ 34 : ℚ) ≤ (1 - (v : ℚ)) * LARGE_NEGATIVE ∧
        0 < (1 - (v : ℚ)) * LARGE_NEGATIVE) := by
  refine ⟨by simp [extendedMask], fun i v hv => ⟨?_, fun hv2 => ?_⟩⟩
  · have hdata : (extendedMask mask).data
        = mask.map (fun (m : Int) => (1 - (m : ℚ)) * LARGE_NEGATIVE) := rfl
    rw [hdata, List.getElem?_map, hv, Option.map_some']
  · have hcast : (2 : ℚ) ≤ (v : ℚ) := by exact_mod_cast hv2
    have heq : (1 - (v : ℚ)) * LARGE_NEGATIVE
        = ((v : ℚ) - 1) * (34028 * 10 ^ 34) := by
      rw [LARGE_NEGATIVE]; ring
    have h1 : (1 : ℚ) ≤ (v : ℚ) - 1 := by linarith
    constructor
    · rw [heq]
      nlinarith
    · rw [heq]
      nlinarith

/-- C10 witness: evaluating the claim on the concrete out-of-range mask `[2]`:
the bias entry is `(1 - 2) * (-3.4028e38) = +3.4028e38 > 0`. -/
theorem c10_witness :
    (extendedMask [2]).data.length = ([2] : List Int).length ∧
    (extendedMask [2]).data[0]? = some ((1 - ((2 : Int) : ℚ)) * LARGE_NEGATIVE) ∧
    (34028 * 10 ^ 34 : ℚ) ≤ (1 - ((2 : Int) : ℚ)) * LARGE_NEGATIVE ∧
    0 < (1 - ((2 : Int) : ℚ)) * LARGE_NEGATIVE := by
  have h := c10_out_of_range_mask_positive_bias [2]
  have h2 := h.2 0 2 rfl
  exact ⟨h.1, h2.1, (h2.2 (by norm_num)).1, (h2.2 (by norm_num)).2⟩

/-- C3: the wrapped forward computation is deterministic — for a fixed wrapper
state (loaded submodules in eval mode are pure tensor functions, and the
forward body contains no source of randomness), invocations on identical
input triples produce identical outputs. -/
theorem c3_forward_deterministic {H O : Type} (w : MaskedLMWrapper H O)
    (ids mask tids ids' mask' tids' : List Int)
    (h1 : ids = ids') (h2 : mask = mask') (h3 : tids = tids') :
    w.forward ids mask tids = w.forward ids' mask' tids' := by
  subst h1; subst h2; subst h3; rfl

/-- A concrete instantiation of the abstract submodules, for evaluating the
wrapper theorems on closed inputs. -/
def trivialWrapper : MaskedLMWrapper Int Int :=
  mkMaskedLMWrapper (fun _ _ _ => 0) (fun h _ => (h, [])) (fun h => h) MAX_SEQ_LEN

/-- C3 witness: two invocations of a concrete wrapper on the identical
concrete input triple agree. -/
theorem c3_witness :
    trivialWrapper.forward [1, 2] [1, 1] [0, 0]
      = trivialWrapper.forward [1, 2] [1, 1] [0, 0] :=
  c3_forward_deterministic trivialWrapper [1, 2] [1, 1] [0, 0] [1, 2] [1, 1] [0, 0]
    rfl rfl rfl

/-- After one save, the destination holds exactly one package entry: the one
just written. -/
theorem filter_savePackage (fs : FS) (c : Nat) :
    (savePackage fs c).filter (fun e => e.1 == mlpackageName)
      = [(mlpackageName, FileData.package c)] := by
  rw [savePackage, List.filter_append]
  have hpre : (if fs.any (fun e => e.1 == mlpackageName)
      then fs.filter (fun e => e.1 != mlpackageName) else fs).filter
        (fun e => e.1 == mlpackageName) = [] := by
    by_cases h : fs.any (fun e => e.1 == mlpackageName)
    · rw [if_pos h, List.filter_filter]
      apply List.filter_eq_nil_iff.mpr
      intro e _
      simp [bne]
    · rw [if_neg h]
      apply List.filter_eq_nil_iff.mpr
      intro e he
      exact fun hc => h (List.any_eq_true.mpr ⟨e, he, hc⟩)
  rw [hpre, List.nil_append]
  simp

/-- C4: the save step removes any existing package directory at the
destination before writing, so after a single run — and in particular after a
second run over the same destination — exactly one model package entry is
present, the freshly written one, with no stale remnants. -/
theorem c4_remove_then_write (fs : FS) (c₁ c₂ : Nat) :
    (savePackage fs c₁).filter (fun e => e.1 == mlpackageName)
      = [(mlpackageName, FileData.package c₁)] ∧
    (savePackage (savePackage fs c₁) c₂).filter (fun e => e.1 == mlpackageName)
      = [(mlpackageName, FileData.package c₂)] :=
  ⟨filter_savePackage fs c₁, filter_savePackage _ c₂⟩

/-- Overwriting a flat file leaves exactly that file at its name. -/
theorem getFile_setFile (fs : FS) (n : String) (d : FileData) :
    getFile (setFile fs n d) n = some d := by
  rw [getFile, setFile, List.filter_append, List.filter_filter]
  have hpre : fs.filter (fun e => (e.1 == n) && (e.1 != n)) = [] := by
    apply List.filter_eq_nil_iff.mpr
    intro e _
    simp [bne]
  rw [hpre, List.nil_append]
  simp

/-- Saving the model package does not touch a file with a different name. -/
theorem getFile_savePackage_other (fs : FS) (n : String)
    (hn : (n == mlpackageName) = false) (c : Nat) :
    getFile (savePackage fs c) n = getFile fs n := by
  have hne : n ≠ mlpackageName := by simpa using hn
  rw [getFile, savePackage, List.filter_append]
  have hlast : List.filter (fun e => e.1 == n) [(mlpackageName, FileData.package c)]
      = [] := by
    simp [Ne.symm hne]
  have hpre : (if fs.any (fun e => e.1 == mlpackageName)
      then fs.filter (fun e => e.1 != mlpackageName) else fs).filter
        (fun e => e.1 == n) = fs.filter (fun e => e.1 == n) := by
    by_cases h : fs.any (fun e => e.1 == mlpackageName)
    · rw [if_pos h, List.filter_filter]
      apply List.filter_congr
      intro e _
      by_cases he : e.1 = n
      · simp [he, bne, hn]
      · simp [he]
    · rw [if_neg h]
  rw [hlast, hpre, List.append_nil, getFile]

/-- C5: `vocab.txt` is written before tracing, conversion or quantization
begins, and whichever later model stage fails fatally, the on-disk state at
the stop — failure or success — still holds the already-written vocabulary
file: the pipeline performs no rollback, the two outputs being written
independently. -/
theorem c5_vocab_survives_model_failure (fs : FS) (vocab : List (String × Nat))
    (pkg : Nat) (traceOk convertOk quantizeOk : Bool) :
    getFile (finalFS (mainPipeline fs vocab pkg traceOk convertOk quantizeOk))
      vocabTxtName = some (FileData.text (vocabFileChars vocab)) := by
  have hvp : (vocabTxtName == mlpackageName) = false := by decide
  cases traceOk <;> cases convertOk <;> cases quantizeOk <;>
    first
      | exact getFile_setFile fs vocabTxtName _
      | (show getFile
            (savePackage (setFile fs vocabTxtName (FileData.text (vocabFileChars vocab))) pkg)
            vocabTxtName = some (FileData.text (vocabFileChars vocab))
         rw [getFile_savePackage_other _ _ hvp]
         exact getFile_setFile fs vocabTxtName _)

/-- C6: the format converter is invoked with exactly three declared input
tensors named `input_ids`, `attention_mask` and `token_type_ids`, each of
fixed shape `[1, L]` with 32-bit integer element type — matching the declared
shape of every dummy tensor the wrapper is traced with — one declared output
tensor named `logits`, and a declared minimum platform version. -/
theorem c6_converter_invocation :
    convertInputs.map CTTensorType.name
      = ["input_ids", "attention_mask", "token_type_ids"] ∧
    convertInputs.all (fun t => t.shape == some [1, MAX_SEQ_LEN]
      && t.dtype == some CTDType.int32) = true ∧
    (∀ draw : List Int, (dummyIds draw).dims = [1, MAX_SEQ_LEN]) ∧
    dummyMask.dims = [1, MAX_SEQ_LEN] ∧
    dummyTypeIds.dims = [1, MAX_SEQ_LEN] ∧
    convertOutputs.map CTTensorType.name = ["logits"] ∧
    minimumDeploymentTarget.isSome = true :=
  ⟨rfl, by decide, fun _ => rfl, rfl, rfl, rfl, rfl⟩

/-- C7: the trace exporter executes the wrapper exactly once, on dummy inputs
of declared shape `[1, MAX_SEQ_LEN]` whose ids lie in `[0, 1000)` (the
`torch.randint(0, 1000, …)` contract), whose attention mask is all ones, and
whose token type ids are all zeros. -/
theorem c7_trace_once_on_dummies {H O : Type} (w : MaskedLMWrapper H O)
    (draw : List Int) (hlen : draw.length = MAX_SEQ_LEN)
    (hrange : ∀ x ∈ draw, 0 ≤ x ∧ x < 1000) :
    (jitTrace
        (fun p : Tensor2 × Tensor2 × Tensor2 => w.forward p.1.data p.2.1.data p.2.2.data)
        (dummyIds draw, dummyMask, dummyTypeIds)).recordedCalls
      = [(dummyIds draw, dummyMask, dummyTypeIds)] ∧
    (jitTrace
        (fun p : Tensor2 × Tensor2 × Tensor2 => w.forward p.1.data p.2.1.data p.2.2.data)
        (dummyIds draw, dummyMask, dummyTypeIds)).recordedCalls.length = 1 ∧
    (dummyIds draw).dims = [1, MAX_SEQ_LEN] ∧
    (dummyIds draw).data.length = MAX_SEQ_LEN ∧
    (∀ x ∈ (dummyIds draw).data, 0 ≤ x ∧ x < 1000) ∧
    dummyMask.dims = [1, MAX_SEQ_LEN] ∧
    dummyMask.data = List.replicate MAX_SEQ_LEN 1 ∧
    dummyTypeIds.dims = [1, MAX_SEQ_LEN] ∧
    dummyTypeIds.data = List.replicate MAX_SEQ_LEN 0 :=
  ⟨rfl, rfl, rfl, hlen, hrange, rfl, rfl, rfl, rfl⟩

/-- C7 witness: evaluating the claim on a concrete wrapper and the concrete
draw `[5, 5, …, 5]` of length `MAX_SEQ_LEN`. -/
theorem c7_witness :
    (jitTrace
        (fun p : Tensor2 × Tensor2 × Tensor2 =>
          trivialWrapper.forward p.1.data p.2.1.data p.2.2.data)
        (dummyIds (List.replicate MAX_SEQ_LEN 5), dummyMask, dummyTypeIds)).recordedCalls
      = [(dummyIds (List.replicate MAX_SEQ_LEN 5), dummyMask, dummyTypeIds)] ∧
    (jitTrace
        (fun p : Tensor2 × Tensor2 × Tensor2 =>
          trivialWrapper.forward p.1.data p.2.1.data p.2.2.data)
        (dummyIds (List.replicate MAX_SEQ_LEN 5), dummyMask, dummyTypeIds)).recordedCalls.length
      = 1 ∧
    (dummyIds (List.replicate MAX_SEQ_LEN 5)).dims = [1, MAX_SEQ_LEN] ∧
    (dummyIds (List.replicate MAX_SEQ_LEN 5)).data.length = MAX_SEQ_LEN ∧
    (∀ x ∈ (dummyIds (List.replicate MAX_SEQ_LEN 5)).data, 0 ≤ x ∧ x < 1000) ∧
    dummyMask.dims = [1, MAX_SEQ_LEN] ∧
    dummyMask.data = List.replicate MAX_SEQ_LEN 1 ∧
    dummyTypeIds.dims = [1, MAX_SEQ_LEN] ∧
    dummyTypeIds.data = List.replicate MAX_SEQ_LEN 0 :=
  c7_trace_once_on_dummies trivialWrapper (List.replicate MAX_SEQ_LEN 5)
    (List.length_replicate MAX_SEQ_LEN 5)
    (fun x hx => by rw [List.eq_of_mem_replicate hx]; exact ⟨by norm_num, by norm_num⟩)

end DictaBertConvert
